import Mathlib

/-!
Shallow embedding of the `tenv` environment-variable loader (`src/index.ts`):
the schema data model, the value coercion function `parseValue`, the per-field
validation cascade of `loadEnv`, the error strategy handler `handleErrors`,
and the dotenv-file merge into the ambient environment performed by
`dotenv.config`.  JavaScript runtime values are modelled by `Value`; JavaScript
numbers are modelled by `JsNum`, with finite values represented as exact
rationals (IEEE-754 rounding, overflow to infinity, and negative zero are not
modelled; no claim below depends on them).
-/

namespace Tenv

/-- A JavaScript number: NaN, the two infinities, or a finite value.
A finite value is represented exactly as the decimal fraction
`mant / 10^scale` — every number constructed by this program comes from a
decimal, hexadecimal, octal or binary literal, and all of those are decimal
fractions.  The representation is not normalized, so numeric equality is
the semantic `JsNum.beq` below, never structural equality. -/
inductive JsNum where
  | nan
  | posInf
  | negInf
  | finite (mant : Int) (scale : Nat)
deriving DecidableEq, Repr

/-- Equality of JavaScript numbers as used by `SameValueZero`: NaN equals
NaN, infinities match, and finite values compare as exact fractions. -/
def JsNum.beq : JsNum → JsNum → Bool
  | .nan, .nan => true
  | .posInf, .posInf => true
  | .negInf, .negInf => true
  | .finite m1 s1, .finite m2 s2 => m1 * (10 : Int) ^ s2 == m2 * (10 : Int) ^ s1
  | _, _ => false

mutual

/-- A JavaScript runtime value as seen by the loader: strings (raw environment
values), numbers, booleans, `null`, `undefined`, arrays and plain objects
(the latter can only arise from `JSON.parse`).  Array elements and object
fields are their own mutually inductive list types so that every recursion
over values is structural. -/
inductive Value where
  | str (s : String)
  | num (n : JsNum)
  | bool (b : Bool)
  | null
  | undefined
  | arr (elems : ValueList)
  | obj (fields : ObjFields)

/-- The elements of a JavaScript array value. -/
inductive ValueList where
  | nil
  | cons (head : Value) (tail : ValueList)

/-- The key/value fields of a JavaScript object value. -/
inductive ObjFields where
  | nil
  | cons (key : String) (val : Value) (tail : ObjFields)

end

/-- Build an array-value element list from a Lean list. -/
def ValueList.ofList : List Value → ValueList
  | [] => .nil
  | v :: rest => .cons v (ValueList.ofList rest)

/-- Build an object field list from a Lean association list. -/
def ObjFields.ofList : List (String × Value) → ObjFields
  | [] => .nil
  | (k, v) :: rest => .cons k v (ObjFields.ofList rest)

/-- Decimal digits of the fractional part `num/den` (with `num < den`),
produced by long division; `fuel` bounds the number of digits.  All finite
numbers reaching this function in the development are decimal fractions, for
which the expansion terminates exactly, matching JavaScript number
formatting for such values. -/
def fracDigits (fuel : Nat) (num den : Nat) : String :=
  match fuel with
  | 0 => ""
  | fuel' + 1 =>
    if num = 0 then ""
    else
      let num10 := num * 10
      (Char.ofNat (48 + num10 / den)).toString ++ fracDigits fuel' (num10 % den) den

/-- Decimal rendering of the finite value `mant / 10^scale`, as JavaScript
renders finite numbers (integer part, then a fractional part when
non-zero; negative zero renders as `0`). -/
def jsFiniteToString (mant : Int) (scale : Nat) : String :=
  let sign := if mant < 0 then "-" else ""
  let n := mant.natAbs
  let d := (10 : Nat) ^ scale
  let f := fracDigits 64 (n % d) d
  sign ++ toString (n / d) ++ (if f = "" then "" else "." ++ f)

/-- `ToString` on a JavaScript number (`String(n)`). -/
def jsNumToString : JsNum → String
  | .nan => "NaN"
  | .posInf => "Infinity"
  | .negInf => "-Infinity"
  | .finite m s => jsFiniteToString m s

mutual

/-- `ToString` on a JavaScript value, as used by template literals,
`RegExp.test`, and the implicit conversion in `JSON.parse`. -/
def jsToString : Value → String
  | .str s => s
  | .num n => jsNumToString n
  | .bool b => if b then "true" else "false"
  | .null => "null"
  | .undefined => "undefined"
  | .arr l => jsArrJoin l
  | .obj _ => "[object Object]"

/-- `Array.prototype.toString`, i.e. `join(",")`. -/
def jsArrJoin : ValueList → String
  | .nil => ""
  | .cons v .nil => jsItemString v
  | .cons v rest => jsItemString v ++ "," ++ jsArrJoin rest

/-- Stringification of one element inside `Array.prototype.join`:
`null` and `undefined` become the empty string, everything else its usual
string form. -/
def jsItemString : Value → String
  | .null => ""
  | .undefined => ""
  | .str s => s
  | .num n => jsNumToString n
  | .bool b => if b then "true" else "false"
  | .arr l => jsArrJoin l
  | .obj _ => "[object Object]"

end

/-- `Array.prototype.join` with an explicit separator (used by the
allowed-values error message, which joins with a comma and a space). -/
def jsJoinSep (sep : String) : List Value → String
  | [] => ""
  | [v] => jsItemString v
  | v :: rest => jsItemString v ++ sep ++ jsJoinSep sep rest

/-- The JavaScript whitespace and line-terminator characters stripped by
string-to-number conversion (ASCII subset plus no-break space; the more
exotic Unicode space characters are not modelled). -/
def isJsWhitespace (c : Char) : Bool :=
  c = ' ' || c = '\t' || c = '\n' || c = '\r' || c = '\x0b' || c = '\x0c' || c = '\xa0'

/-- Strip leading and trailing JavaScript whitespace. -/
def jsTrim (s : String) : List Char :=
  ((s.toList.dropWhile isJsWhitespace).reverse.dropWhile isJsWhitespace).reverse

def decDigit? (c : Char) : Option Nat :=
  if c.isDigit then some (c.toNat - 48) else none

def hexDigit? (c : Char) : Option Nat :=
  if c.isDigit then some (c.toNat - 48)
  else if 'a' ≤ c && c ≤ 'f' then some (c.toNat - 87)
  else if 'A' ≤ c && c ≤ 'F' then some (c.toNat - 55)
  else none

/-- Interpret a non-empty run of digits in base `base`; `none` when the list
is empty or contains a character that is not a digit of that base. -/
def digitsToNat (digit? : Char → Option Nat) (base : Nat) : List Char → Option Nat
  | [] => none
  | cs => cs.foldl
      (fun acc c => match acc, digit? c with
        | some a, some d => some (a * base + d)
        | _, _ => none)
      (some 0)

/-- Combine an unsigned decimal mantissa read as `intPart.fracPart` (already
merged into the single natural `mant` with `fracLen` fractional digits) with
a signed decimal exponent `e` into the exact value `mant × 10^(e - fracLen)`,
in the `mant / 10^scale` representation. -/
def applyExponent (mant : Nat) (fracLen : Nat) (e : Int) : Int × Nat :=
  if e ≥ 0 then
    let eN := e.toNat
    if eN ≥ fracLen then (((mant * 10 ^ (eN - fracLen) : Nat) : Int), 0)
    else ((mant : Int), fracLen - eN)
  else ((mant : Int), fracLen + (-e).toNat)

/-- Parse the `DecimalDigits . DecimalDigits? ExponentPart?` forms of the
`StrDecimalLiteral` grammar (after an optional sign has been removed).
Returns the exact value as `mant / 10^scale`; requires the whole input to
be consumed. -/
def parseDecimalLiteral (cs : List Char) : Option (Int × Nat) :=
  let intDigits := cs.takeWhile Char.isDigit
  let rest := cs.dropWhile Char.isDigit
  let (fracDs, afterFrac) :=
    match rest with
    | '.' :: r => (r.takeWhile Char.isDigit, r.dropWhile Char.isDigit)
    | _ => ([], rest)
  if intDigits.isEmpty && fracDs.isEmpty then none
  else
    let expVal : Option Int :=
      match afterFrac with
      | [] => some 0
      | e :: r =>
        if e = 'e' || e = 'E' then
          match r with
          | '+' :: ds => (digitsToNat decDigit? 10 ds).map Int.ofNat
          | '-' :: ds => (digitsToNat decDigit? 10 ds).map (fun n => -(n : Int))
          | ds => (digitsToNat decDigit? 10 ds).map Int.ofNat
        else none
    match expVal with
    | none => none
    | some e =>
        let ip : Nat := (digitsToNat decDigit? 10 intDigits).getD 0
        let fp : Nat := (digitsToNat decDigit? 10 fracDs).getD 0
        some (applyExponent (ip * 10 ^ fracDs.length + fp) fracDs.length e)

/-- The ECMAScript string-to-number conversion applied by `Number(s)` for a
string argument: trims whitespace, maps the empty string to `0`, recognises
the signed infinities, non-decimal `0x`/`0o`/`0b` literals (unsigned only),
and signed decimal literals; every other string yields NaN. -/
def jsStringToNumber (s : String) : JsNum :=
  let t := jsTrim s
  match t with
  | [] => .finite 0 0
  | 'I' :: 'n' :: 'f' :: 'i' :: 'n' :: 'i' :: 't' :: 'y' :: [] => .posInf
  | '+' :: 'I' :: 'n' :: 'f' :: 'i' :: 'n' :: 'i' :: 't' :: 'y' :: [] => .posInf
  | '-' :: 'I' :: 'n' :: 'f' :: 'i' :: 'n' :: 'i' :: 't' :: 'y' :: [] => .negInf
  | '0' :: x :: ds =>
    if x = 'x' || x = 'X' then
      match digitsToNat hexDigit? 16 ds with
      | some n => .finite (n : Int) 0
      | none => .nan
    else if x = 'o' || x = 'O' then
      match digitsToNat (fun c => if '0' ≤ c && c ≤ '7' then decDigit? c else none) 8 ds with
      | some n => .finite (n : Int) 0
      | none => .nan
    else if x = 'b' || x = 'B' then
      match digitsToNat (fun c => if c = '0' || c = '1' then decDigit? c else none) 2 ds with
      | some n => .finite (n : Int) 0
      | none => .nan
    else
      match parseDecimalLiteral t with
      | some (m, s) => .finite m s
      | none => .nan
  | '+' :: cs =>
    match parseDecimalLiteral cs with
    | some (m, s) => .finite m s
    | none => .nan
  | '-' :: cs =>
    match parseDecimalLiteral cs with
    | some (m, s) => .finite (-m) s
    | none => .nan
  | _ =>
    match parseDecimalLiteral t with
    | some (m, s) => .finite m s
    | none => .nan

/-- The ECMAScript `ToNumber` conversion performed by `Number(value)` on an
arbitrary value (arrays and objects go through their string form). -/
def jsToNumber : Value → JsNum
  | .str s => jsStringToNumber s
  | .num n => n
  | .bool b => .finite (if b then 1 else 0) 0
  | .null => .finite 0 0
  | .undefined => .nan
  | .arr l => jsStringToNumber (jsToString (.arr l))
  | .obj f => jsStringToNumber (jsToString (.obj f))

/-! Model of the `JSON.parse` builtin used by the `array` branch of
`parseValue`.  The parser follows the JSON grammar (RFC 8259): a value is
`true`, `false`, `null`, a string, a number, an array, or an object,
surrounded by optional whitespace, and the whole input must be consumed.
Numbers are kept exact as rationals. -/

def isJsonWs (c : Char) : Bool :=
  c = ' ' || c = '\t' || c = '\n' || c = '\r'

def jsonSkipWs (cs : List Char) : List Char := cs.dropWhile isJsonWs

/-- Body of a JSON string after the opening quote: plain characters and the
escape sequences of the JSON grammar (`\u` escapes are decoded directly to
the corresponding code point; lone surrogates are not modelled).  Unescaped
control characters are rejected. -/
def jsonStringAux : List Char → String → Option (String × List Char)
  | [], _ => none
  | '"' :: rest, acc => some (acc, rest)
  | '\\' :: rest, acc =>
    match rest with
    | '"' :: r => jsonStringAux r (acc.push '"')
    | '\\' :: r => jsonStringAux r (acc.push '\\')
    | '/' :: r => jsonStringAux r (acc.push '/')
    | 'b' :: r => jsonStringAux r (acc.push '\x08')
    | 'f' :: r => jsonStringAux r (acc.push '\x0c')
    | 'n' :: r => jsonStringAux r (acc.push '\n')
    | 'r' :: r => jsonStringAux r (acc.push '\r')
    | 't' :: r => jsonStringAux r (acc.push '\t')
    | 'u' :: h1 :: h2 :: h3 :: h4 :: r =>
      match hexDigit? h1, hexDigit? h2, hexDigit? h3, hexDigit? h4 with
      | some a, some b, some c, some d =>
        jsonStringAux r (acc.push (Char.ofNat (((a * 16 + b) * 16 + c) * 16 + d)))
      | _, _, _, _ => none
    | _ => none
  | c :: rest, acc => if c.toNat < 32 then none else jsonStringAux rest (acc.push c)

/-- A JSON number: `-? int frac? exp?`, where the integer part is `0` or a
nonzero digit followed by digits (no leading zeros).  Returns the value as
`mant / 10^scale` and the unconsumed remainder. -/
def jsonNumber (cs : List Char) : Option ((Int × Nat) × List Char) :=
  let (neg, cs1) := match cs with | '-' :: r => (true, r) | _ => (false, cs)
  match cs1 with
  | [] => none
  | c :: tail =>
    if !c.isDigit then none
    else if c = '0' && (match tail with | d :: _ => d.isDigit | [] => false) then none
    else
      let intDs := cs1.takeWhile Char.isDigit
      let rest1 := cs1.dropWhile Char.isDigit
      let fracParsed : Option (List Char × List Char) :=
        match rest1 with
        | '.' :: r =>
          let ds := r.takeWhile Char.isDigit
          if ds.isEmpty then none else some (ds, r.dropWhile Char.isDigit)
        | _ => some ([], rest1)
      match fracParsed with
      | none => none
      | some (fracDs, rest2) =>
        let expParsed : Option (Int × List Char) :=
          match rest2 with
          | e :: r =>
            if e = 'e' || e = 'E' then
              match r with
              | '+' :: ds =>
                let ds1 := ds.takeWhile Char.isDigit
                (digitsToNat decDigit? 10 ds1).map
                  (fun n => ((n : Int), ds.dropWhile Char.isDigit))
              | '-' :: ds =>
                let ds1 := ds.takeWhile Char.isDigit
                (digitsToNat decDigit? 10 ds1).map
                  (fun n => (-(n : Int), ds.dropWhile Char.isDigit))
              | ds =>
                let ds1 := ds.takeWhile Char.isDigit
                (digitsToNat decDigit? 10 ds1).map
                  (fun n => ((n : Int), ds.dropWhile Char.isDigit))
            else some (0, rest2)
          | [] => some (0, rest2)
        match expParsed with
        | none => none
        | some (e, rest3) =>
          let ip : Nat := (digitsToNat decDigit? 10 intDs).getD 0
          let fp : Nat := (digitsToNat decDigit? 10 fracDs).getD 0
          let (m, s) := applyExponent (ip * 10 ^ fracDs.length + fp) fracDs.length e
          some ((if neg then -m else m, s), rest3)

mutual

/-- One JSON value, fuel-indexed (the fuel strictly exceeds the number of
recursive steps any input of the given length can take). -/
def jsonParseValue : Nat → List Char → Option (Value × List Char)
  | 0, _ => none
  | fuel + 1, cs =>
    let cs1 := jsonSkipWs cs
    match cs1 with
    | 't' :: 'r' :: 'u' :: 'e' :: r => some (.bool true, r)
    | 'f' :: 'a' :: 'l' :: 's' :: 'e' :: r => some (.bool false, r)
    | 'n' :: 'u' :: 'l' :: 'l' :: r => some (.null, r)
    | '"' :: r => (jsonStringAux r "").map (fun p => (.str p.1, p.2))
    | '[' :: r => (jsonArrayItems fuel r).map (fun p => (.arr (ValueList.ofList p.1), p.2))
    | '{' :: r => (jsonObjectItems fuel r).map (fun p => (.obj (ObjFields.ofList p.1), p.2))
    | _ => (jsonNumber cs1).map (fun p => (.num (.finite p.1.1 p.1.2), p.2))

/-- Elements of a JSON array after the opening bracket. -/
def jsonArrayItems : Nat → List Char → Option (List Value × List Char)
  | 0, _ => none
  | fuel + 1, cs =>
    let cs1 := jsonSkipWs cs
    match cs1 with
    | ']' :: r => some ([], r)
    | _ =>
      match jsonParseValue fuel cs1 with
      | none => none
      | some (v, r) => jsonArrayRest fuel [v] r

/-- Remaining elements of a JSON array: a comma followed by a value, or the
closing bracket (trailing commas are rejected). -/
def jsonArrayRest : Nat → List Value → List Char → Option (List Value × List Char)
  | 0, _, _ => none
  | fuel + 1, acc, cs =>
    let cs1 := jsonSkipWs cs
    match cs1 with
    | ']' :: r => some (acc, r)
    | ',' :: r =>
      match jsonParseValue fuel r with
      | none => none
      | some (v, r2) => jsonArrayRest fuel (acc ++ [v]) r2
    | _ => none

/-- Members of a JSON object after the opening brace. -/
def jsonObjectItems : Nat → List Char → Option (List (String × Value) × List Char)
  | 0, _ => none
  | fuel + 1, cs =>
    let cs1 := jsonSkipWs cs
    match cs1 with
    | '}' :: r => some ([], r)
    | _ =>
      match jsonObjectPair fuel cs1 with
      | none => none
      | some (kv, r) => jsonObjectRest fuel [kv] r

/-- Remaining members of a JSON object. -/
def jsonObjectRest : Nat → List (String × Value) → List Char →
    Option (List (String × Value) × List Char)
  | 0, _, _ => none
  | fuel + 1, acc, cs =>
    let cs1 := jsonSkipWs cs
    match cs1 with
    | '}' :: r => some (acc, r)
    | ',' :: r =>
      match jsonObjectPair fuel r with
      | none => none
      | some (kv, r2) => jsonObjectRest fuel (acc ++ [kv]) r2
    | _ => none

/-- One `"key" : value` member of a JSON object. -/
def jsonObjectPair : Nat → List Char → Option ((String × Value) × List Char)
  | 0, _ => none
  | fuel + 1, cs =>
    let cs1 := jsonSkipWs cs
    match cs1 with
    | '"' :: r =>
      match jsonStringAux r "" with
      | none => none
      | some (k, r2) =>
        match jsonSkipWs r2 with
        | ':' :: r3 =>
          match jsonParseValue fuel r3 with
          | none => none
          | some (v, r4) => some ((k, v), r4)
        | _ => none
    | _ => none

end

/-- `JSON.parse` on a string: parse one value and require that only
whitespace remains; `none` models the thrown `SyntaxError`. -/
def jsonParse (s : String) : Option Value :=
  match jsonParseValue (2 * s.length + 8) s.toList with
  | some (v, rest) => if (jsonSkipWs rest).isEmpty then some v else none
  | none => none

/-! The schema data model of `src/index.ts`. -/

/-- `type PrimitiveType = 'string' | 'number' | 'boolean'`. -/
inductive PrimitiveType where
  | string
  | number
  | boolean
deriving DecidableEq, Repr

/-- The type tag passed to `parseValue`: a primitive type or `'array'`. -/
inductive EntryType where
  | string
  | number
  | boolean
  | array
deriving DecidableEq, Repr

/-- The string form of a type tag, as interpolated into the
cannot-be-parsed error message. -/
def EntryType.toTypeName : EntryType → String
  | .string => "string"
  | .number => "number"
  | .boolean => "boolean"
  | .array => "array"

/-- The primitive variant of `SchemaEntry`: `type`, `required?`, `default?`,
`allowedValues?`, `regex?`, `validation?`, `sensitive?`.  Optional absent
properties are modelled by `none` / `false`; an explicitly `undefined`
`default` behaves as an absent one and is likewise modelled by `none`.
The `regex` property is modelled by its test function on strings
(`RegExp.prototype.test` after the argument's string conversion), and
`validation` by a boolean predicate on values. -/
structure PrimEntry where
  type : PrimitiveType
  required : Bool
  default : Option Value
  allowedValues : Option (List Value)
  regex : Option (String → Bool)
  validation : Option (Value → Bool)
  sensitive : Bool

/-- The array variant of `SchemaEntry`: `type: 'array'` with `items`,
`required?`, `default?`, `validation?`, `sensitive?` (no `allowedValues`
and no `regex` properties exist on this variant). -/
structure ArrayEntry where
  items : PrimitiveType
  required : Bool
  default : Option Value
  validation : Option (Value → Bool)
  sensitive : Bool

/-- `type SchemaEntry = primitive-descriptor | array-descriptor`. -/
inductive SchemaEntry where
  | prim (e : PrimEntry)
  | arr (e : ArrayEntry)

/-- `entry.type` as the tag handed to `parseValue`. -/
def SchemaEntry.type : SchemaEntry → EntryType
  | .prim e =>
    match e.type with
    | .string => .string
    | .number => .number
    | .boolean => .boolean
  | .arr _ => .array

/-- `entry.required` (an absent property is falsy). -/
def SchemaEntry.required : SchemaEntry → Bool
  | .prim e => e.required
  | .arr e => e.required

/-- `entry.default`. -/
def SchemaEntry.default : SchemaEntry → Option Value
  | .prim e => e.default
  | .arr e => e.default

/-- `entry.allowedValues`, guarded in the source by
`"allowedValues" in entry`: the property exists only on the primitive
variant. -/
def SchemaEntry.allowedValues : SchemaEntry → Option (List Value)
  | .prim e => e.allowedValues
  | .arr _ => none

/-- `entry.regex`, guarded in the source by `"regex" in entry`. -/
def SchemaEntry.regex : SchemaEntry → Option (String → Bool)
  | .prim e => e.regex
  | .arr _ => none

/-- `entry.validation`. -/
def SchemaEntry.validation : SchemaEntry → Option (Value → Bool)
  | .prim e => e.validation
  | .arr e => e.validation

/-- `type Schema = { [key: string]: SchemaEntry }`, an insertion-ordered
mapping modelled as an association list in declaration order. -/
abbrev Schema := List (String × SchemaEntry)

/-- `type ErrorStrategy = 'throw' | 'log' | 'default'`. -/
inductive ErrorStrategy where
  | throw
  | log
  | default
deriving DecidableEq, Repr

/-- `interface LoadEnvOptions`: the schema, the optional dotenv path, and
the optional error strategy. -/
structure LoadEnvOptions where
  schema : Schema
  dotEnvPath : Option String
  errorStrategy : Option ErrorStrategy

/-! The ambient environment (`process.env`), the dotenv file source and
their merge. -/

/-- First-match association lookup, modelling property access on the plain
string-keyed objects involved (`process.env[key]`, result lookup). -/
def lookupKey {α : Type} : List (String × α) → String → Option α
  | [], _ => none
  | (k, v) :: rest, key => if k = key then some v else lookupKey rest key

/-- The effect of `dotenv.config({ path })` on `process.env`: each parsed
file entry is written only when its key is not already present (dotenv does
not override existing variables). -/
def dotenvConfig (env : List (String × String)) :
    List (String × String) → List (String × String)
  | [] => env
  | (k, v) :: rest =>
    if (lookupKey env k).isSome then dotenvConfig env rest
    else dotenvConfig (env ++ [(k, v)]) rest

/-- `options.dotEnvPath || '.env'`: the path used when the option is absent
or the empty string (the only falsy string). -/
def effectiveEnvPath : Option String → String
  | none => ".env"
  | some p => if p = "" then ".env" else p

/-- `path.resolve(cwd, p)` restricted to the cases exercised here: an
absolute path (leading slash) is returned unchanged, a relative one is
joined to the working directory (no `.`/`..` normalization is modelled). -/
def pathResolve (cwd p : String) : String :=
  if p.toList.head? = some (Char.ofNat 47) then p else cwd ++ "/" ++ p

/-- The file system visible to `loadEnv`, as one immutable snapshot: a map
from resolved path to the parsed `NAME=value` mapping of the file when it
exists (`fs.existsSync` is its domain test; the dotenv line syntax itself
is the external parsing primitive). -/
abbrev FileSystem := String → Option (List (String × String))

/-- The ambient environment after the dotenv step of `loadEnv`: when the
resolved file exists, `dotenv.config` extends `process.env` with its
entries for absent keys; otherwise the environment is untouched.  This is
also the merged raw mapping that the schema loop reads. -/
def mergedEnv (options : LoadEnvOptions) (cwd : String) (fsys : FileSystem)
    (env : List (String × String)) : List (String × String) :=
  match fsys (pathResolve cwd (effectiveEnvPath options.dotEnvPath)) with
  | some fileMapping => dotenvConfig env fileMapping
  | none => env

/-! Field coercion (`parseValue`) and the per-field checks of the
`loadEnv` loop. -/

/-- `parseValue(type, value)` from the source: identity for `string`,
`Number(...)`+`isNaN` for `number`, exact `'true'`/`'false'` match for
`boolean`, and `JSON.parse`+`Array.isArray` for `array`.  The `undefined`
return of the source marks failure and is modelled by `Value.undefined`. -/
def parseValue (type : EntryType) (value : Value) : Value :=
  match type with
  | .string => value
  | .number =>
    match jsToNumber value with
    | .nan => .undefined
    | n => .num n
  | .boolean =>
    match value with
    | .str "true" => .bool true
    | .str "false" => .bool false
    | _ => .undefined
  | .array =>
    match jsonParse (jsToString value) with
    | some (.arr l) => .arr l
    | _ => .undefined

/-- `SameValueZero`, the equality used by `Array.prototype.includes`:
NaN equals NaN, other primitives compare by value, arrays and objects
compare by reference — and a freshly coerced value is never reference-equal
to a schema constant, so those comparisons are `false` here. -/
def sameValueZero : Value → Value → Bool
  | .str a, .str b => a == b
  | .num a, .num b => JsNum.beq a b
  | .bool a, .bool b => a == b
  | .null, .null => true
  | .undefined, .undefined => true
  | _, _ => false

/-- `entry.allowedValues.includes(parsedValue)`. -/
def svzIncludes (l : List Value) (v : Value) : Bool :=
  l.any (fun x => sameValueZero x v)

def requiredError (key : String) : String :=
  "Environment variable \x27" ++ key ++ "\x27 is required but not defined."

def parseError (key : String) (type : EntryType) : String :=
  "Environment variable \x27" ++ key ++ "\x27 cannot be parsed as type \x27"
    ++ type.toTypeName ++ "\x27."

def allowedValuesError (key : String) (parsedValue : Value) (allowed : List Value) : String :=
  "Environment variable \x27" ++ key ++ "\x27 has invalid value \x27"
    ++ jsToString parsedValue ++ "\x27. Allowed values are: "
    ++ jsJoinSep ", " allowed ++ "."

def patternError (key : String) : String :=
  "Environment variable \x27" ++ key ++ "\x27 does not match the required pattern."

def customValidationError (key : String) : String :=
  "Custom validation failed for environment variable \x27" ++ key ++ "\x27."

/-- Outcome of the loop body for one field: either an error message is
pushed (and the field is skipped via `continue`), or a value is assigned to
`result[key]` (the absent-and-optional branch assigns `undefined`). -/
inductive FieldOutcome where
  | err (msg : String)
  | assign (v : Value)

/-- The `entry.validation` check, last in the cascade; on success the
parsed value is assigned. -/
def checkValidation (key : String) (entry : SchemaEntry) (parsedValue : Value) :
    FieldOutcome :=
  match entry.validation with
  | some f => if f parsedValue then .assign parsedValue else .err (customValidationError key)
  | none => .assign parsedValue

/-- The `entry.regex` check (the test coerces its argument to a string). -/
def checkRegex (key : String) (entry : SchemaEntry) (parsedValue : Value) :
    FieldOutcome :=
  match entry.regex with
  | some test =>
    if test (jsToString parsedValue) then checkValidation key entry parsedValue
    else .err (patternError key)
  | none => checkValidation key entry parsedValue

/-- The `entry.allowedValues` check (an empty `allowedValues` array is
truthy in the source, so it is checked and always fails). -/
def checkAllowedValues (key : String) (entry : SchemaEntry) (parsedValue : Value) :
    FieldOutcome :=
  match entry.allowedValues with
  | some l =>
    if svzIncludes l parsedValue then checkRegex key entry parsedValue
    else .err (allowedValuesError key parsedValue l)
  | none => checkRegex key entry parsedValue

/-- The loop body once a value (raw or default) is present: coerce with
`parseValue`, then run the allowed-values, regex and custom-validation
checks in source order. -/
def evalPresent (key : String) (entry : SchemaEntry) (value : Value) : FieldOutcome :=
  match parseValue entry.type value with
  | .undefined => .err (parseError key entry.type)
  | parsedValue => checkAllowedValues key entry parsedValue

/-- `rawValue === undefined ? entry.default : rawValue`: the value a field
is evaluated at, substituting the default for an absent raw value. -/
def substitutedValue (entry : SchemaEntry) : Option String → Option Value
  | none => entry.default
  | some s => some (.str s)

/-- The whole loop body for one field of the schema, from the raw lookup
result to the recorded outcome. -/
def evalField (key : String) (entry : SchemaEntry) (rawValue : Option String) :
    FieldOutcome :=
  match substitutedValue entry rawValue with
  | none => if entry.required then .err (requiredError key) else .assign .undefined
  | some v => evalPresent key entry v

/-- Result of the schema loop: the `result` object under construction and
the accumulated `errors` list. -/
structure LoadResult where
  config : List (String × Value)
  errors : List String

/-- The `for (const key in options.schema)` loop of `loadEnv`: fields are
visited in declaration order, each contributing either one error or one
assignment. -/
def loadEnvEval (schema : Schema) (env : List (String × String)) : LoadResult :=
  match schema with
  | [] => ⟨[], []⟩
  | (key, entry) :: rest =>
    let r := loadEnvEval rest env
    match evalField key entry (lookupKey env key) with
    | .err m => ⟨r.config, m :: r.errors⟩
    | .assign v => ⟨(key, v) :: r.config, r.errors⟩

/-- `handleErrors(errors, strategy)`: empty list is a no-op; otherwise the
newline-joined aggregate message is thrown (`Except.error`), logged via
`console.warn` (modelled as the returned diagnostic output), or dropped. -/
def handleErrors (errors : List String) (strategy : ErrorStrategy) :
    Except String (Option String) :=
  if errors.isEmpty then .ok none
  else
    let message := String.intercalate "\n" errors
    match strategy with
    | .throw => .error message
    | .log => .ok (some message)
    | .default => .ok none

/-- What a completed `loadEnv` call hands back: the `result` object and the
diagnostic output emitted by the `log` strategy, if any. -/
structure LoadOutcome where
  result : List (String × Value)
  logged : Option String

/-- `loadEnv(options)` as a function of the ambient state it touches: the
working directory, the file-system snapshot, and `process.env`.  The first
component is the call's outcome (`Except.error` models the thrown aggregate
error, which carries no partial result); the second is `process.env` after
the call, reflecting the mutation performed by `dotenv.config`. -/
def loadEnv (options : LoadEnvOptions) (cwd : String) (fsys : FileSystem)
    (env : List (String × String)) :
    Except String LoadOutcome × List (String × String) :=
  match handleErrors (loadEnvEval options.schema (mergedEnv options cwd fsys env)).errors
      ((options.errorStrategy).getD .throw) with
  | .error m => (.error m, mergedEnv options cwd fsys env)
  | .ok logged =>
    (.ok ⟨(loadEnvEval options.schema (mergedEnv options cwd fsys env)).config, logged⟩,
     mergedEnv options cwd fsys env)

/-! A second rendering of the per-field validation, following the
specification text rather than the code, used to compare the two. -/

/-- The declared-order check list of spec section 4.3, steps 4 to 6
(allowed-values, then pattern, then custom validation), each producing its
error message when it fails. -/
def specCheckResults (key : String) (entry : SchemaEntry) (parsedValue : Value) :
    List (Option String) :=
  [ (match entry.allowedValues with
     | some l =>
       if svzIncludes l parsedValue then none
       else some (allowedValuesError key parsedValue l)
     | none => none),
    (match entry.regex with
     | some test =>
       if test (jsToString parsedValue) then none
       else some (patternError key)
     | none => none),
    (match entry.validation with
     | some f => if f parsedValue then none else some (customValidationError key)
     | none => none) ]

/-- The first applicable failure of an ordered check list. -/
def firstFailure (checks : List (Option String)) : Option String :=
  (checks.filterMap id).head?

/-- Per-field validation as spec section 4.3 words it: required-and-missing,
absent-and-optional, coercion failure, then the first applicable failure
among allowed-values, pattern, and custom validation, recording only that
failure; on success the coerced value is written to the result. -/
def specFieldOutcome (key : String) (entry : SchemaEntry) (value : Option Value) :
    FieldOutcome :=
  match value with
  | none => if entry.required then .err (requiredError key) else .assign .undefined
  | some v =>
    match parseValue entry.type v with
    | .undefined => .err (parseError key entry.type)
    | p =>
      match firstFailure (specCheckResults key entry p) with
      | some m => .err m
      | none => .assign p

/-! Concrete sample instances used by counterexamples and witnesses. -/

/-- A boolean field with the boolean (not string) default `false`, as in the
README usage example `DEBUG: { type: 'boolean', default: false }`. -/
def defaultedBoolEntry : SchemaEntry :=
  .prim ⟨.boolean, false, some (.bool false), none, none, none, false⟩

/-- A number field with default `5` and allowed values `[10]`. -/
def defaultedNumEntry : SchemaEntry :=
  .prim ⟨.number, false, some (.num (.finite 5 0)), some [.num (.finite 10 0)], none, none, false⟩

/-- A number field with default `3000` and no further constraints, as in the
README usage example `PORT: { type: 'number', default: 3000 }`. -/
def portDefaultEntry : SchemaEntry :=
  .prim ⟨.number, false, some (.num (.finite 3000 0)), none, none, none, false⟩

/-- A required string field with no default. -/
def requiredStrEntry : SchemaEntry :=
  .prim ⟨.string, true, none, none, none, none, false⟩

/-- A schema whose two fields both carry defaults that the evaluation
pipeline rejects (boolean default through the boolean coercer; number
default outside its allowed values). -/
def defaultedSchema : Schema :=
  [("DEBUG", defaultedBoolEntry), ("PORT", defaultedNumEntry)]

/-- A file-system snapshot holding one dotenv file at `/cwd/.env` with the
parsed mapping `A=file, B=fb`. -/
def sampleFileSystem : FileSystem :=
  fun p => if p = "/cwd/.env" then some [("A", "file"), ("B", "fb")] else none

/-- An empty file-system snapshot: no dotenv file exists anywhere. -/
def emptyFileSystem : FileSystem := fun _ => none

/-- Options with an empty schema and all optional fields absent. -/
def noSchemaOptions : LoadEnvOptions := ⟨[], none, none⟩

/-- A schema of two required fields, used to show that both missing fields
are reported in one pass. -/
def twoRequiredSchema : Schema :=
  [("A", requiredStrEntry), ("B", requiredStrEntry)]

/-- A schema with a single required field and nothing else. -/
def requiredOnlySchema : Schema := [("REQ", requiredStrEntry)]

/-! Helper lemmas. -/

theorem lookupKey_append_single {α : Type} (env : List (String × α)) (k1 : String)
    (v1 : α) (k : String) :
    lookupKey (env ++ [(k1, v1)]) k =
      match lookupKey env k with
      | some v => some v
      | none => if k1 = k then some v1 else none := by
  induction env with
  | nil => simp [lookupKey]
  | cons p rest ih =>
    obtain ⟨k0, v0⟩ := p
    by_cases h : k0 = k
    · simp [lookupKey, h]
    · simpa [lookupKey, h] using ih

theorem lookupKey_dotenvConfig (env fileM : List (String × String)) (k : String) :
    lookupKey (dotenvConfig env fileM) k =
      match lookupKey env k with
      | some v => some v
      | none => lookupKey fileM k := by
  induction fileM generalizing env with
  | nil => cases h : lookupKey env k <;> simp [dotenvConfig, lookupKey, h]
  | cons p rest ih =>
    obtain ⟨k1, v1⟩ := p
    simp only [dotenvConfig]
    split
    · rename_i h1
      rw [ih]
      cases h : lookupKey env k with
      | some v => simp
      | none =>
        have hne : k1 ≠ k := by
          intro he
          rw [he, h] at h1
          simp at h1
        simp [lookupKey, hne]
    · rename_i h1
      rw [ih, lookupKey_append_single]
      cases h : lookupKey env k with
      | some v => simp
      | none => by_cases he : k1 = k <;> simp [lookupKey, he]

theorem lookupKey_isSome_of_mem {α : Type} {fileM : List (String × α)} {k : String}
    {v : α} (h : (k, v) ∈ fileM) : (lookupKey fileM k).isSome := by
  induction fileM with
  | nil => simp at h
  | cons p rest ih =>
    obtain ⟨k1, v1⟩ := p
    by_cases he : k1 = k
    · simp [lookupKey, he]
    · rcases List.mem_cons.mp h with h1 | h1
      · exact absurd (congrArg Prod.fst h1).symm he
      · simp [lookupKey, he, ih h1]

theorem dotenvConfig_eq_self (env fileM : List (String × String))
    (h : ∀ p ∈ fileM, (lookupKey env p.1).isSome) :
    dotenvConfig env fileM = env := by
  induction fileM with
  | nil => rfl
  | cons p rest ih =>
    obtain ⟨k1, v1⟩ := p
    have h1 : (lookupKey env k1).isSome = true := h (k1, v1) (by simp)
    simp only [dotenvConfig, h1, if_true]
    exact ih (fun q hq => h q (by simp [hq]))

theorem dotenvConfig_idem (env fileM : List (String × String)) :
    dotenvConfig (dotenvConfig env fileM) fileM = dotenvConfig env fileM := by
  apply dotenvConfig_eq_self
  intro p hp
  rw [lookupKey_dotenvConfig]
  cases h : lookupKey env p.1 with
  | some v => simp
  | none =>
    simpa using lookupKey_isSome_of_mem (k := p.1) (v := p.2) hp

theorem mergedEnv_idem (options : LoadEnvOptions) (cwd : String) (fsys : FileSystem)
    (env : List (String × String)) :
    mergedEnv options cwd fsys (mergedEnv options cwd fsys env) =
      mergedEnv options cwd fsys env := by
  unfold mergedEnv
  cases h : fsys (pathResolve cwd (effectiveEnvPath options.dotEnvPath)) with
  | none => simp [h]
  | some fileM => simp [h, dotenvConfig_idem]

theorem loadEnv_snd (options : LoadEnvOptions) (cwd : String) (fsys : FileSystem)
    (env : List (String × String)) :
    (loadEnv options cwd fsys env).2 = mergedEnv options cwd fsys env := by
  unfold loadEnv
  split <;> rfl

theorem handleErrors_default_eq (errors : List String) :
    handleErrors errors .default = .ok none := by
  unfold handleErrors
  split <;> rfl

theorem loadEnvEval_errors_eq (schema : Schema) (env : List (String × String)) :
    (loadEnvEval schema env).errors =
      schema.filterMap (fun f =>
        match evalField f.1 f.2 (lookupKey env f.1) with
        | .err m => some m
        | .assign _ => none) := by
  induction schema with
  | nil => rfl
  | cons p rest ih =>
    obtain ⟨key, entry⟩ := p
    simp only [loadEnvEval, List.filterMap_cons]
    cases h : evalField key entry (lookupKey env key) <;> simp [h, ih]

theorem loadEnvEval_config_eq (schema : Schema) (env : List (String × String)) :
    (loadEnvEval schema env).config =
      schema.filterMap (fun f =>
        match evalField f.1 f.2 (lookupKey env f.1) with
        | .err _ => none
        | .assign v => some (f.1, v)) := by
  induction schema with
  | nil => rfl
  | cons p rest ih =>
    obtain ⟨key, entry⟩ := p
    simp only [loadEnvEval, List.filterMap_cons]
    cases h : evalField key entry (lookupKey env key) <;> simp [h, ih]

theorem lookupKey_config_not_mem (schema : Schema) (env : List (String × String))
    (key : String) (h : key ∉ schema.map Prod.fst) :
    lookupKey (loadEnvEval schema env).config key = none := by
  induction schema with
  | nil => rfl
  | cons p rest ih =>
    obtain ⟨k, e⟩ := p
    simp only [List.map_cons, List.mem_cons] at h
    push_neg at h
    obtain ⟨hk, hrest⟩ := h
    simp only [loadEnvEval]
    cases he : evalField k e (lookupKey env k) with
    | err m => exact ih hrest
    | assign v =>
      have hne : k ≠ key := fun hkk => hk hkk.symm
      simp [lookupKey, hne, ih hrest]

theorem lookupKey_config_err (schema : Schema) (env : List (String × String))
    (key : String) (entry : SchemaEntry) (m : String)
    (hnd : (schema.map Prod.fst).Nodup)
    (hmem : (key, entry) ∈ schema)
    (herr : evalField key entry (lookupKey env key) = .err m) :
    lookupKey (loadEnvEval schema env).config key = none := by
  induction schema with
  | nil => simp at hmem
  | cons p rest ih =>
    obtain ⟨k, e⟩ := p
    simp only [List.map_cons, List.nodup_cons] at hnd
    obtain ⟨hknotin, hndrest⟩ := hnd
    rcases List.mem_cons.mp hmem with hhead | htail
    · have hk : key = k := congrArg Prod.fst hhead
      have hent : entry = e := congrArg Prod.snd hhead
      subst hk
      subst hent
      simp only [loadEnvEval, herr]
      exact lookupKey_config_not_mem rest env key hknotin
    · have hkne : k ≠ key := by
        intro he
        subst he
        exact hknotin (List.mem_map_of_mem Prod.fst htail)
      simp only [loadEnvEval]
      cases he2 : evalField k e (lookupKey env k) with
      | err m2 => exact ih hndrest htail
      | assign v => simp [lookupKey, hkne, ih hndrest htail]

theorem checkCascade_assign (key : String) (entry : SchemaEntry) (p v : Value)
    (h : checkAllowedValues key entry p = .assign v) : v = p := by
  unfold checkAllowedValues checkRegex checkValidation at h
  rcases hA : entry.allowedValues with _ | l <;>
    rcases hR : entry.regex with _ | r <;>
    rcases hV : entry.validation with _ | f <;>
    simp only [hA, hR, hV] at h <;>
    (try split_ifs at h) <;>
    simp_all

theorem checkCascade_eq_firstFailure (key : String) (entry : SchemaEntry) (p : Value) :
    checkAllowedValues key entry p =
      (match firstFailure (specCheckResults key entry p) with
       | some m => FieldOutcome.err m
       | none => FieldOutcome.assign p) := by
  unfold checkAllowedValues checkRegex checkValidation specCheckResults firstFailure
  rcases hA : entry.allowedValues with _ | l <;>
    rcases hR : entry.regex with _ | r <;>
    rcases hV : entry.validation with _ | f <;>
    simp only [hA, hR, hV] <;>
    (try split_ifs) <;>
    simp [List.filterMap_cons, firstFailure]

theorem evalPresent_assign (key : String) (entry : SchemaEntry) (value v : Value)
    (h : evalPresent key entry value = .assign v) : v = parseValue entry.type value := by
  unfold evalPresent at h
  cases hp : parseValue entry.type value <;> rw [hp] at h
  case undefined => exact absurd h (by simp)
  all_goals exact checkCascade_assign key entry _ v h

theorem loadEnv_fst_default (options : LoadEnvOptions) (cwd : String) (fsys : FileSystem)
    (env : List (String × String)) (h : options.errorStrategy = some .default) :
    (loadEnv options cwd fsys env).1 =
      .ok ⟨(loadEnvEval options.schema (mergedEnv options cwd fsys env)).config, none⟩ := by
  unfold loadEnv
  rw [h, Option.getD_some, handleErrors_default_eq]

/-! The claims. -/

/-- C1, counterexample: on a schema whose two fields are absent from the raw
mapping and carry defaults (`DEBUG` a boolean field with default `false`,
`PORT` a number field with default `5` and allowed values `[10]`), the claim
says no error is ever recorded and the configuration maps each field to its
default; the code instead records an error for both fields (the boolean
default fails the coercer, the number default fails the allowed-values
check) and assigns neither. -/
theorem claim_C1_counterexample :
    (loadEnvEval defaultedSchema []).errors =
      ["Environment variable \x27DEBUG\x27 cannot be parsed as type \x27boolean\x27.",
       "Environment variable \x27PORT\x27 has invalid value \x275\x27. Allowed values are: 10."]
    ∧ (loadEnvEval defaultedSchema []).config = [] :=
  ⟨rfl, rfl⟩

/-- C1, amended: for a schema field absent from the merged raw mapping whose
descriptor supplies a default, the field is evaluated exactly as a present
value: the default is passed through the Field Coercer and the
allowed-values, pattern and custom-validation checks, errors can be
recorded, and any assigned value is the coerced default
`parseValue entry.type d`. -/
theorem claim_C1 (key : String) (entry : SchemaEntry) (d : Value)
    (hd : entry.default = some d) :
    evalField key entry none = evalPresent key entry d
    ∧ ∀ v, evalField key entry none = .assign v → v = parseValue entry.type d := by
  have he : evalField key entry none = evalPresent key entry d := by
    simp [evalField, substitutedValue, hd]
  exact ⟨he, fun v hv => evalPresent_assign key entry d v (he ▸ hv)⟩

/-- C1, witness: the amended claim at the README example field
`PORT : { type: 'number', default: 3000 }`. -/
theorem claim_C1_witness :
    evalField "PORT" portDefaultEntry none =
      evalPresent "PORT" portDefaultEntry (.num (.finite 3000 0))
    ∧ ∀ v, evalField "PORT" portDefaultEntry none = .assign v →
        v = parseValue portDefaultEntry.type (.num (.finite 3000 0)) :=
  claim_C1 "PORT" portDefaultEntry (.num (.finite 3000 0)) rfl

/-- C2, counterexample: with an empty ambient environment and a dotenv file
mapping `A=file, B=fb`, the environment after the `loadEnv` call is that
file mapping, not the empty mapping it was before the call — `dotenv.config`
mutates `process.env`. -/
theorem claim_C2_counterexample :
    (loadEnv noSchemaOptions "/cwd" sampleFileSystem []).2 = [("A", "file"), ("B", "fb")]
    ∧ (loadEnv noSchemaOptions "/cwd" sampleFileSystem []).2 ≠ [] :=
  ⟨rfl, by decide⟩

/-- C2, amended: a `loadEnv` call can mutate the ambient environment, but
only by adding dotenv-file entries for keys that were absent: every
name/value pair present before the call is still present afterwards, when
the resolved file does not exist the environment is returned unchanged, and
a key absent from the ambient environment maps afterwards to its file value
(if any). -/
theorem claim_C2 (options : LoadEnvOptions) (cwd : String) (fsys : FileSystem)
    (env : List (String × String)) :
    (∀ k v, lookupKey env k = some v →
      lookupKey (loadEnv options cwd fsys env).2 k = some v)
    ∧ (fsys (pathResolve cwd (effectiveEnvPath options.dotEnvPath)) = none →
        (loadEnv options cwd fsys env).2 = env)
    ∧ (∀ fileM, fsys (pathResolve cwd (effectiveEnvPath options.dotEnvPath)) = some fileM →
        ∀ k, lookupKey env k = none →
          lookupKey (loadEnv options cwd fsys env).2 k = lookupKey fileM k) := by
  refine ⟨?_, ?_, ?_⟩
  · intro k v h
    rw [loadEnv_snd]
    unfold mergedEnv
    cases hf : fsys (pathResolve cwd (effectiveEnvPath options.dotEnvPath)) with
    | none => exact h
    | some fileM => simp [lookupKey_dotenvConfig, h]
  · intro h
    rw [loadEnv_snd]
    unfold mergedEnv
    rw [h]
  · intro fileM hf k hk
    rw [loadEnv_snd]
    unfold mergedEnv
    rw [hf]
    simp [lookupKey_dotenvConfig, hk]

/-- C2, witness: the amended claim on a concrete call — the ambient entry
`A=sys` survives the call, the file-only key `B` is added with its file
value, and with no file the environment is unchanged. -/
theorem claim_C2_witness :
    lookupKey (loadEnv noSchemaOptions "/cwd" sampleFileSystem [("A", "sys")]).2 "A" = some "sys"
    ∧ lookupKey (loadEnv noSchemaOptions "/cwd" sampleFileSystem [("A", "sys")]).2 "B" = some "fb"
    ∧ (loadEnv noSchemaOptions "/cwd" emptyFileSystem [("A", "sys")]).2 = [("A", "sys")] := by
  refine ⟨?_, ?_, ?_⟩
  · exact (claim_C2 noSchemaOptions "/cwd" sampleFileSystem [("A", "sys")]).1 "A" "sys" rfl
  · exact ((claim_C2 noSchemaOptions "/cwd" sampleFileSystem [("A", "sys")]).2.2
      [("A", "file"), ("B", "fb")] rfl "B" rfl).trans rfl
  · exact (claim_C2 noSchemaOptions "/cwd" emptyFileSystem [("A", "sys")]).2.1 rfl

/-- C3: in the merged raw mapping that evaluation reads, a key defined in the
ambient environment keeps its ambient value even when the file also defines
it, and a key not defined in the ambient environment takes its file value —
file entries are a fallback, never an override. -/
theorem claim_C3 (options : LoadEnvOptions) (cwd : String) (fsys : FileSystem)
    (env fileM : List (String × String)) (k : String)
    (hf : fsys (pathResolve cwd (effectiveEnvPath options.dotEnvPath)) = some fileM) :
    lookupKey (mergedEnv options cwd fsys env) k =
      match lookupKey env k with
      | some v => some v
      | none => lookupKey fileM k := by
  unfold mergedEnv
  rw [hf]
  exact lookupKey_dotenvConfig env fileM k

/-- C3, witness: with ambient `A=sys` and file `A=file, B=fb`, the merged
mapping holds `A=sys` (ambient precedence) and `B=fb` (file fallback). -/
theorem claim_C3_witness :
    lookupKey (mergedEnv noSchemaOptions "/cwd" sampleFileSystem [("A", "sys")]) "A" = some "sys"
    ∧ lookupKey (mergedEnv noSchemaOptions "/cwd" sampleFileSystem [("A", "sys")]) "B" = some "fb" :=
  ⟨claim_C3 noSchemaOptions "/cwd" sampleFileSystem [("A", "sys")]
      [("A", "file"), ("B", "fb")] "A" rfl,
   claim_C3 noSchemaOptions "/cwd" sampleFileSystem [("A", "sys")]
      [("A", "file"), ("B", "fb")] "B" rfl⟩

/-- C4: with a non-empty error list under strategy `throw`, `loadEnv` raises
the single aggregate error whose message joins all per-field errors with
newlines and returns no partial result; with an empty error list the handler
is a no-op for every strategy and the resolved configuration is returned
normally. -/
theorem claim_C4 (options : LoadEnvOptions) (cwd : String) (fsys : FileSystem)
    (env : List (String × String)) :
    ((loadEnvEval options.schema (mergedEnv options cwd fsys env)).errors = [] →
      ∀ strategy,
        handleErrors (loadEnvEval options.schema (mergedEnv options cwd fsys env)).errors
            strategy = .ok none
        ∧ (loadEnv options cwd fsys env).1 =
            .ok ⟨(loadEnvEval options.schema (mergedEnv options cwd fsys env)).config, none⟩)
    ∧ (options.errorStrategy = some .throw →
        (loadEnvEval options.schema (mergedEnv options cwd fsys env)).errors ≠ [] →
        (loadEnv options cwd fsys env).1 =
          .error (String.intercalate "\n"
            (loadEnvEval options.schema (mergedEnv options cwd fsys env)).errors)) := by
  constructor
  · intro h strategy
    constructor
    · simp [handleErrors, h]
    · unfold loadEnv
      rw [h]
      simp [handleErrors]
  · intro hs hne
    cases herrs : (loadEnvEval options.schema (mergedEnv options cwd fsys env)).errors with
    | nil => exact absurd herrs hne
    | cons a t =>
      unfold loadEnv
      rw [hs, herrs]
      simp [handleErrors]

/-- C4, witness: a required field missing under `throw` raises the aggregate
message naming the field and "required"; an empty schema under `throw`
returns the empty configuration, and `handleErrors` on an empty list is a
no-op under `log` as well. -/
theorem claim_C4_witness :
    (loadEnv ⟨[("X", requiredStrEntry)], none, some .throw⟩ "/cwd" emptyFileSystem []).1 =
      .error "Environment variable \x27X\x27 is required but not defined."
    ∧ (loadEnv ⟨[], none, some .throw⟩ "/cwd" emptyFileSystem []).1 = .ok ⟨[], none⟩
    ∧ handleErrors [] .log = .ok none := by
  refine ⟨?_, ?_, ?_⟩
  · exact (claim_C4 ⟨[("X", requiredStrEntry)], none, some .throw⟩ "/cwd"
      emptyFileSystem []).2 rfl (by decide)
  · exact ((claim_C4 ⟨[], none, some .throw⟩ "/cwd" emptyFileSystem []).1 rfl .log).2
  · exact ((claim_C4 ⟨[], none, some .throw⟩ "/cwd" emptyFileSystem []).1 rfl .log).1

/-- C5: schema evaluation never short-circuits across fields — the error
list and the configuration are each the field-wise image of the whole
schema, so every failing field of the schema contributes its error message
to the final list in one pass. -/
theorem claim_C5 (schema : Schema) (env : List (String × String)) :
    ((loadEnvEval schema env).errors =
      schema.filterMap (fun f =>
        match evalField f.1 f.2 (lookupKey env f.1) with
        | .err m => some m
        | .assign _ => none))
    ∧ ((loadEnvEval schema env).config =
      schema.filterMap (fun f =>
        match evalField f.1 f.2 (lookupKey env f.1) with
        | .err _ => none
        | .assign v => some (f.1, v)))
    ∧ ∀ key entry m, (key, entry) ∈ schema →
        evalField key entry (lookupKey env key) = .err m →
        m ∈ (loadEnvEval schema env).errors := by
  refine ⟨loadEnvEval_errors_eq schema env, loadEnvEval_config_eq schema env, ?_⟩
  intro key entry m hmem herr
  rw [loadEnvEval_errors_eq]
  exact List.mem_filterMap.mpr ⟨(key, entry), hmem, by simp [herr]⟩

/-- C5, witness: with two required fields both missing, the second field's
error is in the final list — the first failure did not stop evaluation. -/
theorem claim_C5_witness :
    "Environment variable \x27B\x27 is required but not defined."
      ∈ (loadEnvEval twoRequiredSchema []).errors :=
  (claim_C5 twoRequiredSchema []).2.2 "B" requiredStrEntry _
    (by simp [twoRequiredSchema]) rfl

/-- C6: number coercion succeeds exactly on the strings whose JavaScript
string-to-number conversion is not NaN, returning that parsed numeric value;
in particular `"123"` coerces to `123` while `"not_a_number"` and the
literal `"NaN"` are conversion failures. -/
theorem claim_C6 :
    (∀ s : String, parseValue .number (.str s) = .undefined ↔ jsStringToNumber s = .nan)
    ∧ (∀ s : String, jsStringToNumber s ≠ .nan →
        parseValue .number (.str s) = .num (jsStringToNumber s))
    ∧ parseValue .number (.str "123") = .num (.finite 123 0)
    ∧ parseValue .number (.str "not_a_number") = .undefined
    ∧ parseValue .number (.str "NaN") = .undefined := by
  refine ⟨?_, ?_, rfl, rfl, rfl⟩
  · intro s
    cases h : jsStringToNumber s <;> simp [parseValue, jsToNumber, h]
  · intro s h
    cases hn : jsStringToNumber s
    · exact absurd hn h
    all_goals simp [parseValue, jsToNumber, hn]

/-- C6, witness: the success case of the coercion characterization at the
concrete valid numeric string `"42"`. -/
theorem claim_C6_witness :
    parseValue .number (.str "42") = .num (jsStringToNumber "42") :=
  claim_C6.2.1 "42" (by decide)

/-- C7: the per-field loop body equals the spec-ordered validator — the
checks run in the fixed order required-and-missing, absent-and-optional,
coercion failure, allowed-values, pattern, custom validation, and only the
first applicable failure is recorded for the field. -/
theorem claim_C7 (key : String) (entry : SchemaEntry) (rawValue : Option String) :
    evalField key entry rawValue =
      specFieldOutcome key entry (substitutedValue entry rawValue) := by
  unfold evalField specFieldOutcome
  cases substitutedValue entry rawValue with
  | none => rfl
  | some v =>
    show evalPresent key entry v =
      (match parseValue entry.type v with
       | .undefined => FieldOutcome.err (parseError key entry.type)
       | p =>
         match firstFailure (specCheckResults key entry p) with
         | some m => FieldOutcome.err m
         | none => FieldOutcome.assign p)
    unfold evalPresent
    cases hp : parseValue entry.type v <;>
      first
        | rfl
        | exact checkCascade_eq_firstFailure key entry _

/-- C8: under the `default` strategy a required field missing from both
sources raises nothing and produces no diagnostic output; the returned
configuration has no entry for that field, and it is the same configuration
the `log` strategy would return. -/
theorem claim_C8 (schema : Schema) (dotEnvPath : Option String) (cwd : String)
    (fsys : FileSystem) (env : List (String × String)) (key : String) (entry : SchemaEntry)
    (hnd : (schema.map Prod.fst).Nodup)
    (hmem : (key, entry) ∈ schema)
    (hreq : entry.required = true)
    (hdef : entry.default = none)
    (habs : lookupKey (mergedEnv ⟨schema, dotEnvPath, some .default⟩ cwd fsys env) key = none) :
    (loadEnv ⟨schema, dotEnvPath, some .default⟩ cwd fsys env).1 =
      .ok ⟨(loadEnvEval schema (mergedEnv ⟨schema, dotEnvPath, some .default⟩ cwd fsys env)).config,
            none⟩
    ∧ lookupKey
        (loadEnvEval schema (mergedEnv ⟨schema, dotEnvPath, some .default⟩ cwd fsys env)).config
        key = none
    ∧ (loadEnvEval schema (mergedEnv ⟨schema, dotEnvPath, some .default⟩ cwd fsys env)).config =
        (loadEnvEval schema (mergedEnv ⟨schema, dotEnvPath, some .log⟩ cwd fsys env)).config := by
  have herr : evalField key entry
      (lookupKey (mergedEnv ⟨schema, dotEnvPath, some .default⟩ cwd fsys env) key) =
      .err (requiredError key) := by
    rw [habs]
    simp [evalField, substitutedValue, hdef, hreq]
  refine ⟨?_, ?_, rfl⟩
  · exact loadEnv_fst_default _ cwd fsys env rfl
  · exact lookupKey_config_err schema _ key entry (requiredError key) hnd hmem herr

/-- C8, witness: the concrete schema with one required field `REQ`, absent
everywhere, under strategy `default`: the call returns the empty
configuration with no diagnostic output and no entry for `REQ`. -/
theorem claim_C8_witness :
    (loadEnv ⟨requiredOnlySchema, none, some .default⟩ "/cwd" emptyFileSystem []).1 =
      .ok ⟨[], none⟩
    ∧ lookupKey (loadEnvEval requiredOnlySchema
        (mergedEnv ⟨requiredOnlySchema, none, some .default⟩ "/cwd" emptyFileSystem [])).config
        "REQ" = none := by
  have h := claim_C8 requiredOnlySchema none "/cwd" emptyFileSystem [] "REQ" requiredStrEntry
    (by decide) (List.Mem.head _) rfl rfl rfl
  exact ⟨h.1, h.2.1⟩

/-- C9: `loadEnv` is idempotent across calls — calling it again on the
process state the first call left behind yields the same outcome and the
same final state, because the dotenv merge it performs is idempotent. -/
theorem claim_C9 (options : LoadEnvOptions) (cwd : String) (fsys : FileSystem)
    (env : List (String × String)) :
    loadEnv options cwd fsys ((loadEnv options cwd fsys env).2) =
      loadEnv options cwd fsys env := by
  rw [loadEnv_snd]
  unfold loadEnv
  rw [mergedEnv_idem]

/-- C10: omitting the dotenv-path option is the same as passing `".env"` —
the missing option falls back to `".env"` resolved against the working
directory, and when that file exists its entries are merged into the raw
mapping (and ambient state) exactly as `dotenv.config` does. -/
theorem claim_C10 (schema : Schema) (errorStrategy : Option ErrorStrategy) (cwd : String)
    (fsys : FileSystem) (env : List (String × String)) :
    loadEnv ⟨schema, none, errorStrategy⟩ cwd fsys env =
      loadEnv ⟨schema, some ".env", errorStrategy⟩ cwd fsys env
    ∧ ∀ fileM, fsys (pathResolve cwd ".env") = some fileM →
        (loadEnv ⟨schema, none, errorStrategy⟩ cwd fsys env).2 = dotenvConfig env fileM := by
  constructor
  · rfl
  · intro fileM h
    rw [loadEnv_snd]
    unfold mergedEnv
    simp only [effectiveEnvPath]
    rw [h]

/-- C10, witness: with no path option and a file present at the resolved
`/cwd/.env`, the call behaves like an explicit `".env"` and the file entries
land in the merged state. -/
theorem claim_C10_witness :
    loadEnv ⟨[], none, none⟩ "/cwd" sampleFileSystem [] =
      loadEnv ⟨[], some ".env", none⟩ "/cwd" sampleFileSystem []
    ∧ (loadEnv ⟨[], none, none⟩ "/cwd" sampleFileSystem []).2 =
        dotenvConfig [] [("A", "file"), ("B", "fb")] :=
  ⟨(claim_C10 [] none "/cwd" sampleFileSystem []).1,
   (claim_C10 [] none "/cwd" sampleFileSystem []).2 [("A", "file"), ("B", "fb")] rfl⟩

end Tenv

